import Mathlib

/-
  Verification development for the exchange-rates repository
  (src/src/exchange-rates-error.js, src/src/query-string-builder.js,
  src/unnamed/part_000 = utils module).

  Shallow embedding conventions:
  * JavaScript numbers are modelled as rationals (Rat); all rate values in
    scope are finite decimals, so no floating-point behaviour is relied on.
  * JavaScript plain objects are modelled as association lists in insertion
    order (JS string-keyed objects enumerate keys in insertion order).
  * Promise rejections and thrown exceptions are both modelled with Except.
  * The HTTP transport, the date library (date-fns v1) and the currency
    catalog are external collaborators; they are modelled by explicit
    parameters or by definitions marked as modelled from the spec.
-/

namespace XRates

/-- Errors thrown by the library: the single ExchangeRatesError class
(src/src/exchange-rates-error.js, first part) carrying its message, and the
built-in TypeError used by base, symbols and convert. -/
inductive JsError where
  | exchangeRatesError (msg : String)
  | typeError (msg : String)
deriving DecidableEq, Repr

/-- A JavaScript JSON-like value: a number or a string-keyed object in
insertion order. Only these two shapes occur in the rates pipeline. -/
inductive JsVal where
  | num (q : Rat)
  | obj (es : List (String × JsVal))

/-- Object.keys: enumeration order of a JS object = insertion order; a
number has no enumerable own properties, so Object.keys of a number is []. -/
def jsKeys : JsVal → List String
  | .num _ => []
  | .obj es => es.map Prod.fst

/-- Property lookup on the entry list of an object. -/
def jsGetEntries : List (String × JsVal) → String → Option JsVal
  | [], _ => none
  | (k2, v) :: rest, k => if k2 = k then some v else jsGetEntries rest k

/-- Property lookup obj[k]; none models undefined. -/
def jsGet : JsVal → String → Option JsVal
  | .num _, _ => none
  | .obj es, k => jsGetEntries es k

/-- Object.values: values of an object in insertion order, [] for a number. -/
def jsValues : JsVal → List JsVal
  | .num _ => []
  | .obj es => es.map Prod.snd

/-- Numeric coercion used where the source arithmetic only ever sees
numbers; an object argument would give NaN in JS and is outside the scope
of every claim (theorems restrict to numeric values where it matters). -/
def ratOf : JsVal → Rat
  | .num q => q
  | .obj _ => 0

/-- A calendar date as produced by the date collaborator. -/
structure CalDate where
  year : Nat
  month : Nat
  day : Nat
deriving DecidableEq, Repr

/-- date-fns isAfter on calendar dates: strict lexicographic comparison of
(year, month, day), matching timestamp comparison for calendar dates. -/
def isAfter (a b : CalDate) : Bool :=
  if a.year ≠ b.year then decide (b.year < a.year)
  else if a.month ≠ b.month then decide (b.month < a.month)
  else decide (b.day < a.day)

/-- date-fns getYear. -/
def getYear (d : CalDate) : Nat := d.year

/-- Decimal digit character. -/
def digitChar (n : Nat) : Char := Char.ofNat (48 + n)

/-- Decimal digits with structural fuel (n + 1 is always enough fuel for
n, since the number shrinks by a factor of ten each step). -/
def natCharsAux : Nat → Nat → List Char
  | 0, _ => []
  | fuel + 1, n =>
    if n < 10 then [digitChar n]
    else natCharsAux fuel (n / 10) ++ [digitChar (n % 10)]

/-- Decimal digits of a natural number, most significant first. -/
def natChars (n : Nat) : List Char := natCharsAux (n + 1) n

/-- Decimal rendering of a natural number. -/
def natStr (n : Nat) : String := String.mk (natChars n)

/-- Zero-pad to two digits (date-fns format token DD / MM). -/
def pad2 (n : Nat) : String := if n < 10 then "0" ++ natStr n else natStr n

/-- Zero-pad to four digits (date-fns format token YYYY). -/
def pad4 (n : Nat) : String :=
  if n < 10 then "000" ++ natStr n
  else if n < 100 then "00" ++ natStr n
  else if n < 1000 then "0" ++ natStr n
  else natStr n

/-- utils.formatDate (src/unnamed/part_000): render a date as YYYY-MM-DD
via the date collaborator format(date, "YYYY-MM-DD"). -/
def formatDate (d : CalDate) : String :=
  pad4 d.year ++ "-" ++ pad2 d.month ++ "-" ++ pad2 d.day

/-- JavaScript String.prototype.toUpperCase on the ASCII currency codes
in scope, character by character. -/
def jsToUpper (s : String) : String := String.mk (s.data.map Char.toUpper)

/-- utils.untrailingSlashIt (src/unnamed/part_000). -/
def untrailingSlashIt (str : String) : String :=
  if str.endsWith "/" then str.dropRight 1 else str

/-- Characters left intact by encodeURIComponent (ECMAScript uriUnescaped:
letters, digits, hyphen underscore period bang tilde star quote parens). -/
def isUnreservedURI (c : Char) : Bool :=
  c.isAlphanum || c == Char.ofNat 45 || c == Char.ofNat 95 || c == Char.ofNat 46 ||
    c == Char.ofNat 33 || c == Char.ofNat 126 || c == Char.ofNat 42 ||
    c == Char.ofNat 39 || c == Char.ofNat 40 || c == Char.ofNat 41

/-- Uppercase hexadecimal digit. -/
def hexDigit (n : Nat) : Char :=
  if n < 10 then Char.ofNat (48 + n) else Char.ofNat (55 + n)

/-- UTF-8 bytes of a code point. -/
def utf8Bytes (n : Nat) : List Nat :=
  if n < 128 then [n]
  else if n < 2048 then [192 + n / 64, 128 + n % 64]
  else if n < 65536 then [224 + n / 4096, 128 + (n / 64) % 64, 128 + n % 64]
  else [240 + n / 262144, 128 + (n / 4096) % 64, 128 + (n / 64) % 64, 128 + n % 64]

/-- encodeURIComponent on one character. -/
def encodeChar (c : Char) : List Char :=
  if isUnreservedURI c then [c]
  else ((utf8Bytes c.toNat).map
    (fun b => [Char.ofNat 37, hexDigit (b / 16), hexDigit (b % 16)])).flatten

/-- ECMAScript encodeURIComponent. -/
def encodeURIComponent (s : String) : String :=
  String.mk ((s.data.map encodeChar).flatten)

/-- JS object property assignment on an association list: overwrite in
place when the key exists, append otherwise. -/
def assocSet (m : List (String × String)) (k v : String) : List (String × String) :=
  match m with
  | [] => [(k, v)]
  | (k2, v2) :: rest => if k2 = k then (k, v) :: rest else (k2, v2) :: assocSet rest k v

/-- QueryStringBuilder (src/src/query-string-builder.js): holds the pending
parameters as a JS object in insertion order. -/
structure QueryStringBuilder where
  _obj : List (String × String)

namespace QueryStringBuilder

/-- QueryStringBuilder.addParam: encode key and value with
encodeURIComponent when the encode flag is true (the JS default), then
assign into the parameter object. -/
def addParam (qs : QueryStringBuilder) (key val : String) (encode : Bool) :
    QueryStringBuilder :=
  let paramKey := if encode then encodeURIComponent key else key
  let paramVal := if encode then encodeURIComponent val else val
  ⟨assocSet qs._obj paramKey paramVal⟩

/-- QueryStringBuilder._build: join key=value pairs with ampersands and
prefix a question mark only when the joined string is nonempty. -/
def _build (qs : QueryStringBuilder) : String :=
  let s := String.intercalate "&" (qs._obj.map (fun kv => kv.1 ++ "=" ++ kv.2))
  if s.length = 0 then "" else "?" ++ s

end QueryStringBuilder

/-- Modelled from the spec: the static currency-code catalog
(src/currencies is required by the main module but is not among the
sources). The README lists the supported codes; the catalog is this fixed
closed set of 3-letter codes. -/
def currenciesList : List String :=
  ["AUD", "BRL", "GBP", "BGN", "CAD", "CNY", "HRK", "CZK", "DKK", "EUR",
   "HKD", "HUF", "ISK", "IDR", "INR", "ILS", "JPY", "MYR", "MXN", "NZD",
   "NOK", "PHP", "PLN", "RON", "RUB", "SGD", "ZAR", "KRW", "SEK", "CHF",
   "THB", "TRY", "USD"]

/-- Default API base url. -/
def API_BASE_URL : String := "https://api.ratesapi.io"

/-- The value held in the _from field: the string "latest" or a parsed
calendar date. -/
inductive DateSel where
  | latest
  | onDate (d : CalDate)
deriving DecidableEq, Repr

/-- The configuration state of one ExchangeRates instance
(src/src/exchange-rates-error.js, constructor). -/
structure ExchangeRates where
  _api_base_url : String
  _base : Option String
  _symbols : Option (List String)
  _from : DateSel
  _to : Option CalDate
deriving DecidableEq, Repr

/-- Error messages of _validate, fetch and friends. -/
def msgLatestRange : String :=
  "Cannot set the \x27from\x27 date to \x27latest\x27 when fetching a date range"

/-- The InvalidDateOrder message. -/
def msgDateOrder : String :=
  "The \x27from\x27 date cannot be after the \x27to\x27 date"

/-- The DateOutOfRange message. -/
def msgBefore1999 : String := "Cannot get historical rates before 1999"

/-- The ApiError message for a non-success HTTP status. -/
def apiErrMsg (status : Nat) : String :=
  "API returned a bad response (HTTP " ++ natStr status ++ ")"

/-- The FetchFailed wrapper produced by the trailing catch in fetch. -/
def fetchFailMsg (m : String) : String :=
  "Couldn\x27t fetch the exchange rate, " ++ m

/-- Message of the TypeError raised by Object.keys(undefined) when the
response body has no rates field; the trailing catch wraps it. -/
def ratesUndefMsg : String := "Cannot convert undefined or null to object"

/-- Outcome of one transport (isomorphic-fetch) call: a response with a
status code and a body whose json() either parses or rejects with a
message, or a network-level rejection. -/
inductive Transport where
  | success (status : Nat) (body : Except String JsVal)
  | networkError (msg : String)

/-- A dynamically typed JavaScript argument as passed to base, symbols and
convert: a string, a number, or an array. -/
inductive JsIn where
  | str (s : String)
  | num (q : Rat)
  | arrOf (l : List JsIn)

namespace ExchangeRates

/-- The state built by the exported exchangeRates() factory (constructor
defaults). -/
def new : ExchangeRates :=
  { _api_base_url := API_BASE_URL, _base := none, _symbols := none,
    _from := DateSel.latest, _to := none }

/-- _validateCurrency: membership in the currency catalog. -/
def _validateCurrency (currency : String) : Except JsError Unit :=
  if currency ∈ currenciesList then .ok ()
  else .error (.exchangeRatesError (currency ++ " is not a valid currency"))

/-- _isHistoryRequest: the _to field was set. -/
def _isHistoryRequest (c : ExchangeRates) : Bool := c._to.isSome

/-- The trailing check of _validate, shared by the range and single-date
paths: a from date that is not latest must have year at least 1999. -/
def _validateYear (c : ExchangeRates) : Except JsError Unit :=
  match c._from with
  | .latest => .ok ()
  | .onDate d => if getYear d < 1999 then .error (.exchangeRatesError msgBefore1999) else .ok ()

/-- _validate, with the source control flow: for a history request first
the latest-as-start check, then the date-order check; afterwards in every
case the year-1999 check. The first failing check raises. -/
def _validate (c : ExchangeRates) : Except JsError Unit :=
  match c._to with
  | some d2 =>
    match c._from with
    | .latest => .error (.exchangeRatesError msgLatestRange)
    | .onDate d1 =>
      if isAfter d1 d2 then .error (.exchangeRatesError msgDateOrder)
      else _validateYear c
  | none => _validateYear c

/-- date-fns format applied to the raw _from value inside _buildUrl: a
date formats as YYYY-MM-DD; the string "latest" is unparsable there and
formats as the literal Invalid Date (unreachable after _validate). -/
def formatFrom : DateSel → String
  | .latest => "Invalid Date"
  | .onDate d => formatDate d

/-- _buildUrl, statement by statement: endpoint selection, start_at and
end_at for history requests (encoded, the addParam default), base
(encoded) when set, symbols joined with commas and explicitly NOT encoded,
then the rendered query string appended to the url. -/
def _buildUrl (c : ExchangeRates) : String :=
  let url0 := c._api_base_url ++ "/"
  let qs0 : QueryStringBuilder := ⟨[]⟩
  let step1 : String × QueryStringBuilder :=
    match c._to with
    | some d2 =>
      (url0 ++ "history",
        (qs0.addParam "start_at" (formatFrom c._from) true).addParam
          "end_at" (formatDate d2) true)
    | none =>
      (url0 ++ (match c._from with
        | .latest => "latest"
        | .onDate d => formatDate d), qs0)
  let qs2 : QueryStringBuilder :=
    match c._base with
    | some b => step1.2.addParam "base" b true
    | none => step1.2
  let qs3 : QueryStringBuilder :=
    match c._symbols with
    | some syms => qs2.addParam "symbols" (String.intercalate "," syms) false
    | none => qs2
  step1.1 ++ qs3._build

/-- setApiBaseUrl. -/
def setApiBaseUrl (c : ExchangeRates) (url : String) : ExchangeRates :=
  { c with _api_base_url := untrailingSlashIt url }

/-- at(date) for an already parsed calendar date, named atDate because at
is reserved in Lean: parseDate returns its argument unchanged (see
parseDate below), so the setter stores the date. -/
def atDate (c : ExchangeRates) (date : CalDate) : ExchangeRates :=
  { c with _from := DateSel.onDate date }

/-- latest(). -/
def latest (c : ExchangeRates) : ExchangeRates :=
  { c with _from := DateSel.latest }

/-- from(date), named fromDate because from is reserved in Lean. -/
def fromDate (c : ExchangeRates) (date : CalDate) : ExchangeRates :=
  { c with _from := DateSel.onDate date }

/-- to(date), named toDate for symmetry with fromDate. -/
def toDate (c : ExchangeRates) (date : CalDate) : ExchangeRates :=
  { c with _to := some date }

/-- base(currency) as a state transformer: the pair holds the call result
and the instance state after the call; every throw happens before the
field assignment, so the state at a throw is the entry state. -/
def baseSt (c : ExchangeRates) (currency : JsIn) : Except JsError Unit × ExchangeRates :=
  match currency with
  | .str s =>
    (match _validateCurrency (jsToUpper s) with
     | .error e => (.error e, c)
     | .ok _ => (.ok (), { c with _base := some (jsToUpper s) }))
  | _ => (.error (.typeError "Base currency has to be a string"), c)

/-- The loop body of symbols: validate and upper-case every element of the
local currenciesArray, failing on the first non-string or unknown code. -/
def validateSymbols : List JsIn → Except JsError (List String)
  | [] => .ok []
  | x :: rest =>
    match x with
    | .str s =>
      (match _validateCurrency (jsToUpper s) with
       | .error e => .error e
       | .ok _ =>
         match validateSymbols rest with
         | .error e => .error e
         | .ok tail => .ok (jsToUpper s :: tail))
    | _ => .error (.typeError "Symbol currencies have to be strings")

/-- symbols(currencies) as a state transformer: a non-array argument is
wrapped in a one-element array; the instance field _symbols is assigned
only after the whole loop succeeded. -/
def symbolsSt (c : ExchangeRates) (currencies : JsIn) : Except JsError Unit × ExchangeRates :=
  let currenciesArray := match currencies with
    | .arrOf l => l
    | other => [other]
  match validateSymbols currenciesArray with
  | .error e => (.error e, c)
  | .ok lst => (.ok (), { c with _symbols := some lst })

end ExchangeRates

/-- The response reshaping inside fetch: collapse a single-key rates
object to its single value, otherwise return the object unchanged
(keys.length === 1 test on Object.keys). -/
def normalize (rates : JsVal) : JsVal :=
  let keys := jsKeys rates
  if keys.length = 1 then (jsGet rates (keys.headD "")).getD rates else rates

namespace ExchangeRates

/-- The url getter: validate, then build. -/
def url (c : ExchangeRates) : Except JsError String :=
  match c._validate with
  | .error e => .error e
  | .ok _ => .ok c._buildUrl

/-- fetch, with the transport outcome passed in explicitly. The trailing
catch of the promise chain wraps every rejection (the bad-status error,
a network rejection, a json() rejection and the missing-rates TypeError)
into the single wrapper message; the wrapping is inlined at each reject
site. The synchronous _validate throw happens before the promise chain
and is not wrapped. -/
def fetchWith (c : ExchangeRates) (t : Transport) : Except JsError JsVal :=
  match c._validate with
  | .error e => .error e
  | .ok _ =>
    match t with
    | .networkError msg => .error (.exchangeRatesError (fetchFailMsg msg))
    | .success status body =>
      if status ≠ 200 then .error (.exchangeRatesError (fetchFailMsg (apiErrMsg status)))
      else
        match body with
        | .error msg => .error (.exchangeRatesError (fetchFailMsg msg))
        | .ok data =>
          match jsGet data "rates" with
          | none => .error (.exchangeRatesError (fetchFailMsg ratesUndefMsg))
          | some rates => .ok (normalize rates)

end ExchangeRates

/-- The mergedObj[key].push(obj[key]) step of avg: append the value to the
list held at the key, creating the entry at the end on first use (JS
object insertion order). -/
def pushVal (m : List (String × List JsVal)) (k : String) (v : JsVal) :
    List (String × List JsVal) :=
  match m with
  | [] => [(k, [v])]
  | (k2, vs) :: rest => if k2 = k then (k2, vs ++ [v]) :: rest else (k2, vs) :: pushVal rest k v

/-- The inner forEach of avg: walk Object.keys of one per-date entry and
push each of its values into the merged object. A scalar entry has no
keys, so it contributes nothing. -/
def mergeEntry (m : List (String × List JsVal)) (e : JsVal) : List (String × List JsVal) :=
  (jsKeys e).foldl
    (fun m k =>
      match jsGet e k with
      | some v => pushVal m k v
      | none => m) m

/-- The outer forEach of avg over Object.values of the fetched rates. -/
def mergedOf (rates : JsVal) : List (String × List JsVal) :=
  (jsValues rates).foldl mergeEntry []

/-- The reduce((p, c) => p + c, 0) of avg. -/
def listSum (l : List Rat) : Rat := l.foldl (· + ·) 0

/-- Number.prototype.toFixed on an exact rational: the integer n with
n / 10 ^ dp closest to the value, ties to the larger n, per the
ECMAScript definition (the source values are exact decimals). -/
def toFixed (dp : Nat) (q : Rat) : Rat :=
  ((⌊q * (10 : Rat) ^ dp + 1 / 2⌋ : Int) : Rat) / (10 : Rat) ^ dp

/-- The per-key body of the avg reduction: the sum of the collected
values divided by their count, rounded iff decimalPlaces was given. -/
def roundRate (decimalPlaces : Option Int) (vs : List JsVal) : Rat :=
  let avgRate := listSum (vs.map ratOf) / ((vs.length : Nat) : Rat)
  match decimalPlaces with
  | none => avgRate
  | some dp => toFixed dp.toNat avgRate

/-- The avgRates object of avg: per merged key, the averaged value. -/
def avgRatesOf (decimalPlaces : Option Int) (rates : JsVal) : List (String × Rat) :=
  (mergedOf rates).map (fun kv => (kv.1, roundRate decimalPlaces kv.2))

/-- The final single-key collapse of avg on the averaged object. -/
def collapseRates (l : List (String × Rat)) : JsVal :=
  match l with
  | [(_, q)] => .num q
  | _ => .obj (l.map (fun kv => (kv.1, JsVal.num kv.2)))

/-- The pure reduction step of avg applied to an already fetched rates
value: a no-op for a non-history request, else merge, average, collapse. -/
def avgReduce (decimalPlaces : Option Int) (isHistory : Bool) (rates : JsVal) : JsVal :=
  if !isHistory then rates
  else collapseRates (avgRatesOf decimalPlaces rates)

namespace ExchangeRates

/-- avg(decimalPlaces): the two decimalPlaces guards, then fetch, then the
reduction. The Number.isInteger guard cannot fire in this model because
decimalPlaces is carried as a mathematical integer. -/
def avg (c : ExchangeRates) (decimalPlaces : Option Int) (t : Transport) :
    Except JsError JsVal :=
  match decimalPlaces with
  | some dp =>
    if dp < 0 then .error (.exchangeRatesError "Decimal places cannot be negative")
    else
      match c.fetchWith t with
      | .error e => .error e
      | .ok rates => .ok (avgReduce decimalPlaces c._isHistoryRequest rates)
  | none =>
    match c.fetchWith t with
    | .error e => .error e
    | .ok rates => .ok (avgReduce decimalPlaces c._isHistoryRequest rates)

end ExchangeRates

/-- The exported convert helper: the amount type guard, the
multiple-target guard, then a fresh instance configured with
latest()/at(date), base(fromCurrency), symbols(toCurrency), fetched, and
the resulting rate multiplied by the amount. -/
def convert (amount fromCurrency toCurrency : JsIn) (date : Option CalDate)
    (t : Transport) : Except JsError Rat :=
  match amount with
  | .num a =>
    match toCurrency with
    | .arrOf _ => .error (.typeError "Cannot convert to multiple currencies at the same time")
    | _ =>
      let inst0 := ExchangeRates.new
      let inst1 := match date with
        | none => inst0.latest
        | some d => inst0.atDate d
      (match inst1.baseSt fromCurrency with
       | (.error e, _) => .error e
       | (.ok _, inst2) =>
         match inst2.symbolsSt toCurrency with
         | (.error e, _) => .error e
         | (.ok _, inst3) =>
           match inst3.fetchWith t with
           | .error e => .error e
           | .ok rates => .ok (ratOf rates * a))
  | _ => .error (.typeError "The \x27amount\x27 parameter has to be a number")

/-- Split a character list at hyphens. -/
def splitDash : List Char → List (List Char)
  | [] => [[]]
  | c :: rest =>
    if c = Char.ofNat 45 then [] :: splitDash rest
    else
      match splitDash rest with
      | [] => [[c]]
      | p :: pr => (c :: p) :: pr

/-- Read a decimal digit list as a number. -/
def digitsToNat (l : List Char) : Nat :=
  l.foldl (fun n c => n * 10 + (c.toNat - 48)) 0

/-- Modelled from the spec: the date collaborator date-fns parse (the
library itself is external). It turns an input into a calendar date when
the input is parsable and into an Invalid Date (none) otherwise. The
concrete model parses ISO YYYY-MM-DD strings and rejects everything
else; which strings parse is irrelevant to the claims, only the
parsable/unparsable distinction matters. -/
def jsParse (s : String) : Option CalDate :=
  match (splitDash s.data).map (fun p =>
      if p ≠ [] && p.all Char.isDigit then some (digitsToNat p) else none) with
  | [some y, some m, some d] =>
    if 1 ≤ m && m ≤ 12 && 1 ≤ d && d ≤ 31 then some ⟨y, m, d⟩ else none
  | _ => none

/-- date-fns v1 isValid: true when the Date is not an Invalid Date. It
throws only when its argument is not a Date instance at all; parse always
returns a Date instance, so inside parseDate it never throws. -/
def isValidDate (d : Option CalDate) : Bool := d.isSome

/-- utils.parseDate (src/unnamed/part_000), statement by statement: parse
the input; call isValid(parsedDate) inside try/catch, where the boolean
result is DISCARDED and nothing in the try block can throw (parse always
hands isValid a Date instance), so the catch branch is dead; finally
return the ORIGINAL argument, not the parsed date. -/
def parseDate (date : String) : Except JsError String :=
  let parsedDate := jsParse date
  let _unusedValidity := isValidDate parsedDate
  Except.ok date

/-- A rates value in the shape the normalize documentation describes: a
number, or an object all of whose values are numbers. -/
def isFlatRates : JsVal → Bool
  | .num _ => true
  | .obj es => es.all (fun kv => match kv.2 with | .num _ => true | .obj _ => false)

/-- First-match lookup in an association list, the JS object read. -/
def assocFind {α : Type} : List (String × α) → String → Option α
  | [], _ => none
  | (k2, v) :: rest, k => if k2 = k then some v else assocFind rest k

/-- Combine an accumulated optional value list with newly collected
values: absent stays absent only when nothing was collected. -/
def optJoin (acc : Option (List JsVal)) (col : List JsVal) : Option (List JsVal) :=
  match acc, col with
  | none, [] => none
  | acc, col => some (acc.getD [] ++ col)

/-- The values held at currency code k across the per-date entries of a
fetched range mapping: object entries contribute their k field, scalar
entries contribute nothing (they have no keys). -/
def collectJs (k : String) (rates : JsVal) : List JsVal :=
  (jsValues rates).filterMap (fun e => jsGet e k)

/-- The numeric values held at currency code k across the per-date
entries. -/
def collectRates (k : String) (rates : JsVal) : List Rat :=
  (collectJs k rates).map ratOf

/-- Arithmetic mean of a list of rationals. -/
def meanOf (l : List Rat) : Rat := listSum l / ((l.length : Nat) : Rat)

/-- Optional rounding to decimal places, as avg applies it. -/
def applyRound (decimalPlaces : Option Int) (q : Rat) : Rat :=
  match decimalPlaces with
  | none => q
  | some dp => toFixed dp.toNat q

/-- The collection exactly as the claim words it: a per-date entry that
is itself a scalar is treated as a single-key map keyed by the one
requested symbol before reduction. -/
def collectClaim (sym k : String) (rates : JsVal) : List Rat :=
  ((jsValues rates).filterMap (fun e =>
    match e with
    | .num q => if k = sym then some (JsVal.num q) else none
    | .obj es => jsGetEntries es k)).map ratOf

/-- Well-formedness of a fetched range mapping: every per-date entry has
pairwise distinct keys (a JS object cannot carry duplicate keys). -/
def entryKeysNodup (rates : JsVal) : Prop :=
  ∀ e ∈ jsValues rates, (jsKeys e).Nodup

instance (rates : JsVal) : Decidable (entryKeysNodup rates) :=
  inferInstanceAs (Decidable (∀ e ∈ jsValues rates, (jsKeys e).Nodup))

/-- A fetched range mapping with one scalar per-date entry next to one
object entry, the shape the claim describes for scalar treatment. -/
def ratesScalarEntry : JsVal :=
  .obj [("2020-01-01", .num ((8 : Rat) / 10)),
        ("2020-01-02", .obj [("EUR", .num ((9 : Rat) / 10))])]

/-- The two-date range mapping of the spec example: EUR worth 0.80 and
0.90 on consecutive dates. -/
def ratesEx : JsVal :=
  .obj [("2018-01-01", .obj [("EUR", .num ((8 : Rat) / 10))]),
        ("2018-01-02", .obj [("EUR", .num ((9 : Rat) / 10))])]

/-- A validated range configuration for the spec example. -/
def cfgEx : ExchangeRates :=
  ⟨API_BASE_URL, none, none, DateSel.onDate ⟨2018, 1, 1⟩, some ⟨2018, 1, 2⟩⟩

/-- A transport outcome carrying the example mapping under rates. -/
def tEx : Transport := .success 200 (.ok (.obj [("rates", ratesEx)]))

/- ===================== Theorems ===================== -/

/-- C2: the claim says at(date)/from(date) fail with InvalidDate when the
date collaborator cannot parse the input, and store the parsed date on
success. The code contradicts its own doc comment (which promises the
throw and the parsed return value): parseDate calls isValid inside a
try/catch but discards the boolean and nothing in the try block throws,
and it returns the original argument instead of the parsed date; so every
input, parsable or not, succeeds and is stored raw. This theorem
evaluates the code at the failing input "not-a-date": the collaborator
rejects it, yet parseDate returns ok with the raw input, and in general
parseDate returns ok with the raw input for every input. -/
theorem parseDate_never_rejects :
    jsParse "not-a-date" = none ∧
    parseDate "not-a-date" = Except.ok "not-a-date" ∧
    ∀ s : String, parseDate s = Except.ok s :=
  ⟨by decide, rfl, fun _ => rfl⟩

/-- C4: whenever the to date is present and from is latest, _validate
fails with the InvalidRangeRequest error, and both the url getter and
fetch surface exactly that error before any URL is built or any transport
outcome is consulted (the fetch result is this error for every transport
outcome). -/
theorem validate_latest_range (c : ExchangeRates)
    (ht : c._to.isSome = true) (hf : c._from = DateSel.latest) :
    c._validate = .error (.exchangeRatesError msgLatestRange) ∧
    c.url = .error (.exchangeRatesError msgLatestRange) ∧
    ∀ t : Transport, c.fetchWith t = .error (.exchangeRatesError msgLatestRange) := by
  obtain ⟨d2, hd2⟩ := Option.isSome_iff_exists.mp ht
  have hv : c._validate = .error (.exchangeRatesError msgLatestRange) := by
    unfold ExchangeRates._validate
    rw [hd2, hf]
  refine ⟨hv, ?_, ?_⟩
  · unfold ExchangeRates.url
    rw [hv]
  · intro t
    unfold ExchangeRates.fetchWith
    rw [hv]

/-- Witness for C4 at the chain .to(2018-06-21) with no .from. -/
theorem validate_latest_range_witness :
    (ExchangeRates.new.toDate ⟨2018, 6, 21⟩)._validate =
      .error (.exchangeRatesError msgLatestRange) ∧
    (ExchangeRates.new.toDate ⟨2018, 6, 21⟩).fetchWith
        (Transport.success 200 (.ok (.obj []))) =
      .error (.exchangeRatesError msgLatestRange) :=
  ⟨(validate_latest_range (ExchangeRates.new.toDate ⟨2018, 6, 21⟩) rfl rfl).1,
   (validate_latest_range (ExchangeRates.new.toDate ⟨2018, 6, 21⟩) rfl rfl).2.2 _⟩

/-- C7: normalize collapses a one-key mapping to its single value, leaves
any mapping with key count other than one unchanged, and on the rates
shapes it is documented for (a currency-to-number mapping, or an already
collapsed number) it is idempotent. -/
theorem normalize_collapse_idem :
    (∀ (k : String) (v : JsVal), normalize (.obj [(k, v)]) = v) ∧
    (∀ es : List (String × JsVal), es.length ≠ 1 → normalize (.obj es) = .obj es) ∧
    (∀ v : JsVal, isFlatRates v = true → normalize (normalize v) = normalize v) := by
  refine ⟨?_, ?_, ?_⟩
  · intro k v
    simp [normalize, jsKeys, jsGet, jsGetEntries]
  · intro es h
    simp [normalize, jsKeys, h]
  · intro v hflat
    match v with
    | .num q => rfl
    | .obj [] => rfl
    | .obj [(k, v)] =>
      simp only [isFlatRates, List.all_cons, List.all_nil, Bool.and_true] at hflat
      match v, hflat with
      | .num q, _ =>
        simp [normalize, jsKeys, jsGet, jsGetEntries]
    | .obj ((k1, v1) :: (k2, v2) :: rest) =>
      have h2 : (((k1, v1) :: (k2, v2) :: rest : List (String × JsVal))).length ≠ 1 := by
        simp
      simp [normalize, jsKeys]

/-- Witness for C7 at concrete one-key and two-key rates objects and a
concrete idempotency instance. -/
theorem normalize_collapse_idem_witness :
    normalize (.obj [("USD", .num (11307 / 10000))]) = .num (11307 / 10000) ∧
    normalize (.obj [("USD", .num 1), ("GBP", .num 2)]) =
      .obj [("USD", .num 1), ("GBP", .num 2)] ∧
    normalize (normalize (.obj [("USD", .num 1), ("GBP", .num 2)])) =
      normalize (.obj [("USD", .num 1), ("GBP", .num 2)]) :=
  ⟨normalize_collapse_idem.1 "USD" _,
   normalize_collapse_idem.2.1 _ (by decide),
   normalize_collapse_idem.2.2 _ (by decide)⟩

/-- C8 counterexample: a configuration whose from date lies in 1998 (year
below 1999) but whose to date is earlier does NOT fail with the
DateOutOfRange error: the date-order check fires first, so _validate
fails with the InvalidDateOrder message instead, falsifying the claim
that every such configuration fails with DateOutOfRange. -/
theorem validate_year_shadowed_cx :
    ((ExchangeRates.new.fromDate ⟨1998, 6, 1⟩).toDate ⟨1998, 1, 1⟩)._validate =
      .error (.exchangeRatesError msgDateOrder) ∧
    msgDateOrder ≠ msgBefore1999 :=
  ⟨rfl, by decide⟩

/-- Shared helper: when from is a date and the range checks do not fire
(no to date, or from not after to), _validate reduces to the year-1999
check. -/
theorem validate_reaches_year (c : ExchangeRates) (d : CalDate)
    (hf : c._from = DateSel.onDate d)
    (hr : c._to = none ∨ ∃ d2, c._to = some d2 ∧ isAfter d d2 = false) :
    c._validate =
      (if d.year < 1999 then .error (.exchangeRatesError msgBefore1999) else .ok ()) := by
  have hyear : c._validateYear =
      (if d.year < 1999 then .error (.exchangeRatesError msgBefore1999) else .ok ()) := by
    unfold ExchangeRates._validateYear
    rw [hf]
    rfl
  have hv : c._validate = c._validateYear := by
    unfold ExchangeRates._validate
    rcases hr with hn | ⟨d2, hd2, hord⟩
    · rw [hn]
    · rw [hd2, hf]
      simp [hord]
  rw [hv, hyear]

/-- C8 amended: in every configuration whose from is a date and in which
the range checks do not fire first (no to date, or a to date not earlier
than from), _validate fails with DateOutOfRange exactly when the from
year is below 1999, and succeeds when the year is at least 1999. -/
theorem validate_year_check (c : ExchangeRates) (d : CalDate)
    (hf : c._from = DateSel.onDate d)
    (hr : c._to = none ∨ ∃ d2, c._to = some d2 ∧ isAfter d d2 = false) :
    (d.year < 1999 → c._validate = .error (.exchangeRatesError msgBefore1999)) ∧
    (1999 ≤ d.year → c._validate = .ok ()) := by
  constructor
  · intro hlt
    rw [validate_reaches_year c d hf hr, if_pos hlt]
  · intro hge
    rw [validate_reaches_year c d hf hr, if_neg (by omega)]

/-- Witness for C8: from 1998-01-01 alone fails with DateOutOfRange and
from 1999-01-01 alone validates. -/
theorem validate_year_check_witness :
    (ExchangeRates.new.fromDate ⟨1998, 1, 1⟩)._validate =
      .error (.exchangeRatesError msgBefore1999) ∧
    (ExchangeRates.new.fromDate ⟨1999, 1, 1⟩)._validate = .ok () :=
  ⟨(validate_year_check _ ⟨1998, 1, 1⟩ rfl (Or.inl rfl)).1 (by decide),
   (validate_year_check _ ⟨1999, 1, 1⟩ rfl (Or.inl rfl)).2 (by decide)⟩

/-- C3 counterexample: on a valid configuration and a transport response
with status 500, fetch does not surface the bare ApiError message
carrying the status: the trailing catch wraps it, so the surfaced error
message is the FetchFailed wrapper around the ApiError message, and the
two messages differ. -/
theorem fetch_status_wrapped_cx :
    ExchangeRates.new.fetchWith (Transport.success 500 (.ok (.obj []))) =
      .error (.exchangeRatesError (fetchFailMsg (apiErrMsg 500))) ∧
    fetchFailMsg (apiErrMsg 500) ≠ apiErrMsg 500 :=
  ⟨rfl, by decide⟩

/-- C3 amended: on every configuration that validates, a non-success
status produces the ApiError message carrying that status code, but it is
wrapped — like every transport-level failure (network error, malformed
body) — into the single FetchFailed error carrying the underlying
message; so the surfaced error is always the FetchFailed wrapper, whose
underlying message for a bad status is the ApiError message. -/
theorem fetch_error_taxonomy (c : ExchangeRates) (hv : c._validate = .ok ()) :
    (∀ (status : Nat) (body : Except String JsVal), status ≠ 200 →
      c.fetchWith (.success status body) =
        .error (.exchangeRatesError (fetchFailMsg (apiErrMsg status)))) ∧
    (∀ msg : String, c.fetchWith (.networkError msg) =
      .error (.exchangeRatesError (fetchFailMsg msg))) ∧
    (∀ msg : String, c.fetchWith (.success 200 (.error msg)) =
      .error (.exchangeRatesError (fetchFailMsg msg))) := by
  refine ⟨?_, ?_, ?_⟩
  · intro status body hs
    unfold ExchangeRates.fetchWith
    rw [hv]
    simp [hs]
  · intro msg
    unfold ExchangeRates.fetchWith
    rw [hv]
  · intro msg
    unfold ExchangeRates.fetchWith
    rw [hv]
    simp

/-- A decimal digit character is unreserved for encodeURIComponent. -/
theorem digitChar_unreserved (n : Nat) (h : n < 10) :
    isUnreservedURI (digitChar n) = true := by
  interval_cases n <;> decide

/-- Every character printed by natChars is a decimal digit, hence
unreserved. -/
theorem natChars_unreserved (n : Nat) :
    ∀ c ∈ natChars n, isUnreservedURI c = true := by
  have aux : ∀ fuel m : Nat, ∀ c ∈ natCharsAux fuel m, isUnreservedURI c = true := by
    intro fuel
    induction fuel with
    | zero =>
      intro m c hc
      simp [natCharsAux] at hc
    | succ f ih =>
      intro m c hc
      rw [natCharsAux] at hc
      split at hc
      · simp only [List.mem_singleton] at hc
        subst hc
        exact digitChar_unreserved m (by omega)
      · rw [List.mem_append] at hc
        rcases hc with h1 | h2
        · exact ih (m / 10) c h1
        · simp only [List.mem_singleton] at h2
          subst h2
          exact digitChar_unreserved _ (Nat.mod_lt _ (by omega))
  exact aux (n + 1) n

/-- Every character of a formatted date (digits and hyphens) is left
intact by encodeURIComponent. -/
theorem formatDate_unreserved (d : CalDate) :
    ∀ c ∈ (formatDate d).data, isUnreservedURI c = true := by
  have hnat : ∀ n : Nat, ∀ c ∈ (natStr n).data, isUnreservedURI c = true := by
    intro n c hc
    exact natChars_unreserved n c hc
  have hdash : ∀ c ∈ ("-" : String).data, isUnreservedURI c = true := by
    decide
  have hzeros : ∀ pre : String, pre = "0" ∨ pre = "00" ∨ pre = "000" →
      ∀ c ∈ pre.data, isUnreservedURI c = true := by
    rintro pre (rfl | rfl | rfl) <;> decide
  have hpad2 : ∀ n : Nat, ∀ c ∈ (pad2 n).data, isUnreservedURI c = true := by
    intro n c hc
    unfold pad2 at hc
    split at hc
    · rw [String.data_append, List.mem_append] at hc
      rcases hc with h | h
      · exact hzeros "0" (Or.inl rfl) c h
      · exact hnat n c h
    · exact hnat n c hc
  have hpad4 : ∀ n : Nat, ∀ c ∈ (pad4 n).data, isUnreservedURI c = true := by
    intro n c hc
    unfold pad4 at hc
    split at hc
    · rw [String.data_append, List.mem_append] at hc
      rcases hc with h | h
      · exact hzeros "000" (Or.inr (Or.inr rfl)) c h
      · exact hnat n c h
    · split at hc
      · rw [String.data_append, List.mem_append] at hc
        rcases hc with h | h
        · exact hzeros "00" (Or.inr (Or.inl rfl)) c h
        · exact hnat n c h
      · split at hc
        · rw [String.data_append, List.mem_append] at hc
          rcases hc with h | h
          · exact hzeros "0" (Or.inl rfl) c h
          · exact hnat n c h
        · exact hnat n c hc
  intro c hc
  unfold formatDate at hc
  simp only [String.data_append, List.mem_append] at hc
  rcases hc with (((h | h) | h) | h) | h
  · exact hpad4 d.year c h
  · exact hdash c h
  · exact hpad2 d.month c h
  · exact hdash c h
  · exact hpad2 d.day c h

/-- encodeURIComponent is the identity on strings made of unreserved
characters. -/
theorem encodeURIComponent_unreserved (s : String)
    (h : ∀ c ∈ s.data, isUnreservedURI c = true) : encodeURIComponent s = s := by
  have key : ∀ l : List Char, (∀ c ∈ l, isUnreservedURI c = true) →
      (l.map encodeChar).flatten = l := by
    intro l hl
    induction l with
    | nil => rfl
    | cons c rest ih =>
      simp only [List.map_cons, List.flatten_cons]
      rw [ih (fun c hc => hl c (List.mem_cons_of_mem _ hc))]
      unfold encodeChar
      rw [if_pos (hl c (List.mem_cons_self c rest))]
      rfl
  apply String.ext
  show (String.mk ((s.data.map encodeChar).flatten)).data = s.data
  rw [key s.data h]

/-- Formatted dates pass through encodeURIComponent unchanged. -/
theorem encode_formatDate (d : CalDate) :
    encodeURIComponent (formatDate d) = formatDate d :=
  encodeURIComponent_unreserved _ (formatDate_unreserved d)

/-- The query assembler renders an empty parameter set as the empty
string. -/
theorem build_nil : QueryStringBuilder._build ⟨[]⟩ = "" := rfl

/-- The length of a key=value pair string is positive. -/
theorem pair_length_pos (k v : String) : (k ++ "=" ++ v).length ≠ 0 := by
  simp only [String.length_append]
  have h1 : ("=" : String).length = 1 := rfl
  omega

/-- The query assembler on one parameter. -/
theorem build_one (k1 v1 : String) :
    QueryStringBuilder._build ⟨[(k1, v1)]⟩ = "?" ++ k1 ++ "=" ++ v1 := by
  show (if (String.intercalate "&" [k1 ++ "=" ++ v1]).length = 0 then ""
    else "?" ++ String.intercalate "&" [k1 ++ "=" ++ v1]) = "?" ++ k1 ++ "=" ++ v1
  rw [show String.intercalate "&" [k1 ++ "=" ++ v1] = k1 ++ "=" ++ v1 by
    simp [String.intercalate, String.intercalate.go]]
  rw [if_neg (pair_length_pos k1 v1)]
  apply String.ext
  simp [String.data_append]

/-- The query assembler on two parameters. -/
theorem build_two (k1 v1 k2 v2 : String) :
    QueryStringBuilder._build ⟨[(k1, v1), (k2, v2)]⟩ =
      "?" ++ k1 ++ "=" ++ v1 ++ "&" ++ k2 ++ "=" ++ v2 := by
  show (if (String.intercalate "&" [k1 ++ "=" ++ v1, k2 ++ "=" ++ v2]).length = 0 then ""
    else "?" ++ String.intercalate "&" [k1 ++ "=" ++ v1, k2 ++ "=" ++ v2]) =
    "?" ++ k1 ++ "=" ++ v1 ++ "&" ++ k2 ++ "=" ++ v2
  rw [show String.intercalate "&" [k1 ++ "=" ++ v1, k2 ++ "=" ++ v2] =
      k1 ++ "=" ++ v1 ++ "&" ++ (k2 ++ "=" ++ v2) by
    simp [String.intercalate, String.intercalate.go]]
  rw [if_neg (by simp only [String.length_append]; have h1 : ("=" : String).length = 1 := rfl; omega)]
  apply String.ext
  simp [String.data_append]

/-- The query assembler on four parameters. -/
theorem build_four (k1 v1 k2 v2 k3 v3 k4 v4 : String) :
    QueryStringBuilder._build ⟨[(k1, v1), (k2, v2), (k3, v3), (k4, v4)]⟩ =
      "?" ++ k1 ++ "=" ++ v1 ++ "&" ++ k2 ++ "=" ++ v2 ++ "&" ++ k3 ++ "=" ++ v3 ++
        "&" ++ k4 ++ "=" ++ v4 := by
  show (if (String.intercalate "&"
      [k1 ++ "=" ++ v1, k2 ++ "=" ++ v2, k3 ++ "=" ++ v3, k4 ++ "=" ++ v4]).length = 0
    then ""
    else "?" ++ String.intercalate "&"
      [k1 ++ "=" ++ v1, k2 ++ "=" ++ v2, k3 ++ "=" ++ v3, k4 ++ "=" ++ v4]) =
    "?" ++ k1 ++ "=" ++ v1 ++ "&" ++ k2 ++ "=" ++ v2 ++ "&" ++ k3 ++ "=" ++ v3 ++
        "&" ++ k4 ++ "=" ++ v4
  rw [show String.intercalate "&"
      [k1 ++ "=" ++ v1, k2 ++ "=" ++ v2, k3 ++ "=" ++ v3, k4 ++ "=" ++ v4] =
      k1 ++ "=" ++ v1 ++ "&" ++ (k2 ++ "=" ++ v2) ++ "&" ++ (k3 ++ "=" ++ v3) ++
        "&" ++ (k4 ++ "=" ++ v4) by
    simp [String.intercalate, String.intercalate.go]]
  rw [if_neg (by simp only [String.length_append]; have h1 : ("=" : String).length = 1 := rfl; omega)]
  apply String.ext
  simp [String.data_append]

/-- The built URL of a plain from/to range configuration. -/
theorem buildUrl_range (u : String) (d1 d2 : CalDate) :
    ExchangeRates._buildUrl ⟨u, none, none, DateSel.onDate d1, some d2⟩ =
      u ++ "/history?start_at=" ++ formatDate d1 ++ "&end_at=" ++ formatDate d2 := by
  show u ++ "/" ++ "history" ++
      QueryStringBuilder._build ⟨assocSet (assocSet []
        (encodeURIComponent "start_at") (encodeURIComponent (formatDate d1)))
        (encodeURIComponent "end_at") (encodeURIComponent (formatDate d2))⟩ =
    u ++ "/history?start_at=" ++ formatDate d1 ++ "&end_at=" ++ formatDate d2
  rw [encode_formatDate d1, encode_formatDate d2,
    show encodeURIComponent "start_at" = "start_at" from rfl,
    show encodeURIComponent "end_at" = "end_at" from rfl]
  rw [show assocSet (assocSet [] "start_at" (formatDate d1)) "end_at" (formatDate d2) =
      [("start_at", formatDate d1), ("end_at", formatDate d2)] by simp [assocSet]]
  rw [build_two]
  apply String.ext
  simp [String.data_append]

/-- C5 counterexample: the dates 1998-01-01 and 1998-01-02 satisfy
d1 ≤ d2, yet the chain .from(d1).to(d2) does not validate: _validate
fails (with the DateOutOfRange message), falsifying the claim that every
chain with d1 ≤ d2 validates and builds the history URL. -/
theorem range_request_url_cx :
    isAfter ⟨1998, 1, 1⟩ ⟨1998, 1, 2⟩ = false ∧
    ((ExchangeRates.new.fromDate ⟨1998, 1, 1⟩).toDate ⟨1998, 1, 2⟩)._validate =
      .error (.exchangeRatesError msgBefore1999) :=
  ⟨rfl, rfl⟩

/-- C5 amended: for all dates d1 ≤ d2 with d1 in year 1999 or later (the
DateOutOfRange check also applies to range starts), .from(d1).to(d2)
validates and the url getter yields the /history path with query
start_at=d1 and end_at=d2, both formatted YYYY-MM-DD; for all d1 > d2,
validation fails with InvalidDateOrder (regardless of year). -/
theorem range_request_url (d1 d2 : CalDate) :
    (isAfter d1 d2 = false → 1999 ≤ d1.year →
      ((ExchangeRates.new.fromDate d1).toDate d2)._validate = .ok () ∧
      ((ExchangeRates.new.fromDate d1).toDate d2).url =
        .ok (API_BASE_URL ++ "/history?start_at=" ++ formatDate d1 ++
          "&end_at=" ++ formatDate d2)) ∧
    (isAfter d1 d2 = true →
      ((ExchangeRates.new.fromDate d1).toDate d2)._validate =
        .error (.exchangeRatesError msgDateOrder)) := by
  constructor
  · intro hord hy
    have hv : ((ExchangeRates.new.fromDate d1).toDate d2)._validate = .ok () := by
      rw [validate_reaches_year _ d1 rfl (Or.inr ⟨d2, rfl, hord⟩), if_neg (by omega)]
    refine ⟨hv, ?_⟩
    unfold ExchangeRates.url
    rw [hv]
    show Except.ok (((ExchangeRates.new.fromDate d1).toDate d2)._buildUrl) = _
    rw [show (ExchangeRates.new.fromDate d1).toDate d2 =
      (⟨API_BASE_URL, none, none, DateSel.onDate d1, some d2⟩ : ExchangeRates) from rfl]
    rw [buildUrl_range]
  · intro hord
    unfold ExchangeRates._validate
    simp [ExchangeRates.fromDate, ExchangeRates.toDate, ExchangeRates.new, hord]

/-- Witness for C5 amended at the dates of the repository tests:
2018-06-01 to 2018-06-21 validates and builds the expected URL, and the
reversed pair fails with InvalidDateOrder. -/
theorem range_request_url_witness :
    ((ExchangeRates.new.fromDate ⟨2018, 6, 1⟩).toDate ⟨2018, 6, 21⟩).url =
      .ok "https://api.ratesapi.io/history?start_at=2018-06-01&end_at=2018-06-21" ∧
    ((ExchangeRates.new.fromDate ⟨2018, 6, 21⟩).toDate ⟨2018, 6, 1⟩)._validate =
      .error (.exchangeRatesError msgDateOrder) := by
  constructor
  · rw [((range_request_url ⟨2018, 6, 1⟩ ⟨2018, 6, 21⟩).1 rfl (by decide)).2]
    rfl
  · exact (range_request_url ⟨2018, 6, 21⟩ ⟨2018, 6, 1⟩).2 rfl

/-- C6: in every built URL the symbols parameter value is the raw
comma-joined code list, NOT URL-encoded, while the start_at, end_at and
base parameters go through encodeURIComponent (the assembler default);
commas would otherwise be mangled (encodeURIComponent turns a comma into
percent-2C); the query string carries a leading question mark exactly
when a parameter was added, and an empty parameter set renders as the
empty string (a configuration with no parameters yields a bare path);
finally the concrete README example URL with base USD and symbols
EUR, GBP over a 2018 range keeps its comma literal. -/
theorem url_query_encoding :
    (∀ (u b : String) (syms : List String) (d1 d2 : CalDate),
      ExchangeRates._buildUrl ⟨u, some b, some syms, DateSel.onDate d1, some d2⟩ =
        u ++ "/history?start_at=" ++ encodeURIComponent (formatDate d1) ++
          "&end_at=" ++ encodeURIComponent (formatDate d2) ++
          "&base=" ++ encodeURIComponent b ++
          "&symbols=" ++ String.intercalate "," syms) ∧
    encodeURIComponent "EUR,USD" = "EUR%2CUSD" ∧
    (∀ u : String, ExchangeRates._buildUrl ⟨u, none, none, DateSel.latest, none⟩ =
      u ++ "/latest") ∧
    QueryStringBuilder._build ⟨[]⟩ = "" ∧
    ExchangeRates._buildUrl ⟨"https://api.exchangeratesapi.io", some "USD",
        some ["EUR", "GBP"], DateSel.onDate ⟨2018, 1, 1⟩, some ⟨2018, 9, 1⟩⟩ =
      "https://api.exchangeratesapi.io/history?start_at=2018-01-01&end_at=2018-09-01&base=USD&symbols=EUR,GBP" := by
  refine ⟨?_, by decide, ?_, rfl, by decide⟩
  · intro u b syms d1 d2
    show u ++ "/" ++ "history" ++
        QueryStringBuilder._build ⟨assocSet (assocSet (assocSet (assocSet []
          (encodeURIComponent "start_at") (encodeURIComponent (formatDate d1)))
          (encodeURIComponent "end_at") (encodeURIComponent (formatDate d2)))
          (encodeURIComponent "base") (encodeURIComponent b))
          "symbols" (String.intercalate "," syms)⟩ = _
    rw [show encodeURIComponent "start_at" = "start_at" from rfl,
      show encodeURIComponent "end_at" = "end_at" from rfl,
      show encodeURIComponent "base" = "base" from rfl]
    rw [show ∀ x y z w : String, assocSet (assocSet (assocSet (assocSet [] "start_at" x)
        "end_at" y) "base" z) "symbols" w =
        [("start_at", x), ("end_at", y), ("base", z), ("symbols", w)] by
      intro x y z w
      simp [assocSet]]
    rw [build_four]
    apply String.ext
    simp [String.data_append]
  · intro u
    show u ++ "/" ++ "latest" ++ QueryStringBuilder._build ⟨[]⟩ = u ++ "/latest"
    rw [build_nil]
    apply String.ext
    simp [String.data_append]

/-- Witness for C3 amended, at the default configuration with a 404
response, a network error and a malformed body. -/
theorem fetch_error_taxonomy_witness :
    ExchangeRates.new.fetchWith (.success 404 (.ok (.obj []))) =
      .error (.exchangeRatesError (fetchFailMsg (apiErrMsg 404))) ∧
    ExchangeRates.new.fetchWith (.networkError "socket hang up") =
      .error (.exchangeRatesError (fetchFailMsg "socket hang up")) ∧
    ExchangeRates.new.fetchWith (.success 200 (.error "Unexpected token < in JSON")) =
      .error (.exchangeRatesError (fetchFailMsg "Unexpected token < in JSON")) :=
  ⟨(fetch_error_taxonomy ExchangeRates.new rfl).1 404 _ (by decide),
   (fetch_error_taxonomy ExchangeRates.new rfl).2.1 _,
   (fetch_error_taxonomy ExchangeRates.new rfl).2.2 _⟩

/-- C10: the base and symbols setters are atomic on error: whenever the
call throws (non-string input or unknown currency code), the instance
state after the call — all five fields _api_base_url, _from, _to, _base
and _symbols — equals the entry state. The state equality is over the
whole ExchangeRates record. -/
theorem setters_atomic (c : ExchangeRates) (arg : JsIn) :
    (∀ e : JsError, (c.baseSt arg).1 = .error e → (c.baseSt arg).2 = c) ∧
    (∀ e : JsError, (c.symbolsSt arg).1 = .error e → (c.symbolsSt arg).2 = c) := by
  constructor
  · intro e
    unfold ExchangeRates.baseSt
    match arg with
    | .str s =>
      dsimp only
      cases hv : ExchangeRates._validateCurrency (jsToUpper s) with
      | error e2 =>
        intro _
        simp [hv]
      | ok u =>
        intro h
        simp at h
    | .num q => intro _; rfl
    | .arrOf l => intro _; rfl
  · intro e
    unfold ExchangeRates.symbolsSt
    dsimp only
    cases hv : ExchangeRates.validateSymbols
        (match arg with | .arrOf l => l | other => [other]) with
    | error e2 =>
      intro _
      rfl
    | ok lst =>
      intro h
      simp at h

/-- Witness for C10: an unknown code passed to base and a non-string
element passed to symbols both leave the default instance unchanged. -/
theorem setters_atomic_witness :
    (ExchangeRates.new.baseSt (.str "XYZ")).2 = ExchangeRates.new ∧
    (ExchangeRates.new.symbolsSt (.arrOf [.str "usd", .num 5])).2 = ExchangeRates.new :=
  ⟨(setters_atomic ExchangeRates.new (.str "XYZ")).1
      (.exchangeRatesError "XYZ is not a valid currency") rfl,
   (setters_atomic ExchangeRates.new (.arrOf [.str "usd", .num 5])).2
      (.typeError "Symbol currencies have to be strings") rfl⟩

/-- C9: convert fails with a TypeError whenever the amount is not a
number (whatever the other arguments and transport outcome are), fails
with a TypeError when the target currency is a list, and otherwise — for
string currencies that pass the catalog checks and a transport outcome
whose fetch produces a single scalar rate — returns that rate multiplied
by the amount. -/
theorem convert_spec :
    (∀ (amount fromC toC : JsIn) (date : Option CalDate) (t : Transport),
      (∀ q : Rat, amount ≠ .num q) →
      convert amount fromC toC date t =
        .error (.typeError "The \x27amount\x27 parameter has to be a number")) ∧
    (∀ (a : Rat) (fromC : JsIn) (l : List JsIn) (date : Option CalDate) (t : Transport),
      convert (.num a) fromC (.arrOf l) date t =
        .error (.typeError "Cannot convert to multiple currencies at the same time")) ∧
    (∀ (a : Rat) (f sTo : String) (date : Option CalDate) (t : Transport) (r : Rat),
      jsToUpper f ∈ currenciesList →
      jsToUpper sTo ∈ currenciesList →
      ExchangeRates.fetchWith
        ⟨API_BASE_URL, some (jsToUpper f), some [jsToUpper sTo],
          (match date with | none => DateSel.latest | some d => DateSel.onDate d),
          none⟩ t = .ok (.num r) →
      convert (.num a) (.str f) (.str sTo) date t = .ok (r * a)) := by
  refine ⟨?_, ?_, ?_⟩
  · intro amount fromC toC date t hnum
    unfold convert
    match amount with
    | .num q => exact absurd rfl (hnum q)
    | .str s => rfl
    | .arrOf l => rfl
  · intro a fromC l date t
    rfl
  · intro a f sTo date t r hf hs ht
    have hvc : ∀ s2 : String, s2 ∈ currenciesList →
        ExchangeRates._validateCurrency s2 = .ok () := by
      intro s2 h2
      unfold ExchangeRates._validateCurrency
      rw [if_pos h2]
    have hsyms : ExchangeRates.validateSymbols [JsIn.str sTo] = .ok [jsToUpper sTo] := by
      unfold ExchangeRates.validateSymbols
      dsimp only
      rw [hvc _ hs]
      rfl
    cases date with
    | none =>
      unfold convert
      dsimp only
      unfold ExchangeRates.baseSt
      dsimp only
      rw [hvc _ hf]
      dsimp only
      unfold ExchangeRates.symbolsSt
      dsimp only
      rw [hsyms]
      dsimp only [ExchangeRates.latest, ExchangeRates.new]
      rw [ht]
      rfl
    | some d =>
      unfold convert
      dsimp only
      unfold ExchangeRates.baseSt
      dsimp only
      rw [hvc _ hf]
      dsimp only
      unfold ExchangeRates.symbolsSt
      dsimp only
      rw [hsyms]
      dsimp only [ExchangeRates.atDate, ExchangeRates.new]
      rw [ht]
      rfl

/-- Looking up the pushed key after pushVal: the value was appended to
the list at that key (created at the end on first use). -/
theorem assocFind_pushVal_same (m : List (String × List JsVal)) (k : String) (v : JsVal) :
    assocFind (pushVal m k v) k = some ((assocFind m k).getD [] ++ [v]) := by
  induction m with
  | nil => simp [pushVal, assocFind]
  | cons kv rest ih =>
    obtain ⟨k2, vs⟩ := kv
    by_cases h : k2 = k
    · subst h
      simp [pushVal, assocFind]
    · simp [pushVal, assocFind, h, ih]

/-- Looking up a different key after pushVal is unchanged. -/
theorem assocFind_pushVal_other (m : List (String × List JsVal)) (k k2 : String)
    (v : JsVal) (h : k2 ≠ k) :
    assocFind (pushVal m k2 v) k = assocFind m k := by
  induction m with
  | nil => simp [pushVal, assocFind, h]
  | cons kv rest ih =>
    obtain ⟨k3, vs⟩ := kv
    by_cases h3 : k3 = k2
    · subst h3
      simp [pushVal, assocFind, h]
    · simp [pushVal, assocFind, h3, ih]

/-- Keys absent from an entry list look up to none. -/
theorem jsGetEntries_eq_none (es : List (String × JsVal)) (k : String)
    (h : k ∉ es.map Prod.fst) : jsGetEntries es k = none := by
  induction es with
  | nil => rfl
  | cons kv rest ih =>
    obtain ⟨k2, v⟩ := kv
    simp only [List.map_cons, List.mem_cons, not_or] at h
    simp only [jsGetEntries]
    rw [if_neg (fun he => h.1 he.symm)]
    exact ih h.2

/-- Keys absent from Object.keys look up to undefined. -/
theorem jsGet_eq_none (e : JsVal) (k : String) (h : k ∉ jsKeys e) :
    jsGet e k = none := by
  match e with
  | .num _ => rfl
  | .obj es => exact jsGetEntries_eq_none es k h

/-- The inner forEach over a duplicate-free key list pushes the looked-up
value exactly once for the key, and leaves other keys alone. -/
theorem assocFind_mergeFold (e : JsVal) (ks : List String)
    (m : List (String × List JsVal)) (k : String) (hnd : ks.Nodup) :
    assocFind (ks.foldl (fun m2 k2 =>
        match jsGet e k2 with
        | some v => pushVal m2 k2 v
        | none => m2) m) k =
      if k ∈ ks then
        (match jsGet e k with
         | some v => some ((assocFind m k).getD [] ++ [v])
         | none => assocFind m k)
      else assocFind m k := by
  induction ks generalizing m with
  | nil => simp
  | cons k2 ks ih =>
    rw [List.foldl_cons]
    rcases List.nodup_cons.mp hnd with ⟨hk2, hnd2⟩
    by_cases hk : k = k2
    · subst hk
      rw [ih _ hnd2, if_neg hk2, if_pos (List.mem_cons_self k ks)]
      cases hget : jsGet e k with
      | none => rfl
      | some v => exact assocFind_pushVal_same m k v
    · have hstep : assocFind (match jsGet e k2 with
          | some v => pushVal m k2 v
          | none => m) k = assocFind m k := by
        cases hget : jsGet e k2 with
        | none => rfl
        | some v => exact assocFind_pushVal_other m k k2 v (Ne.symm hk)
      rw [ih _ hnd2, hstep]
      by_cases hmem : k ∈ ks
      · rw [if_pos hmem, if_pos (List.mem_cons_of_mem _ hmem)]
      · rw [if_neg hmem, if_neg (by simp [List.mem_cons, hk, hmem])]

/-- Merging one per-date entry with duplicate-free keys appends its k
value (when present) to the merged object at k. -/
theorem assocFind_mergeEntry (m : List (String × List JsVal)) (e : JsVal)
    (k : String) (hnd : (jsKeys e).Nodup) :
    assocFind (mergeEntry m e) k =
      match jsGet e k with
      | some v => some ((assocFind m k).getD [] ++ [v])
      | none => assocFind m k := by
  unfold mergeEntry
  rw [assocFind_mergeFold e _ m k hnd]
  by_cases hmem : k ∈ jsKeys e
  · rw [if_pos hmem]
  · rw [if_neg hmem, jsGet_eq_none e k hmem]

/-- optJoin with nothing collected is the accumulator. -/
theorem optJoin_nil (acc : Option (List JsVal)) : optJoin acc [] = acc := by
  cases acc with
  | none => rfl
  | some vs => simp [optJoin]

/-- optJoin with a nonempty collection always yields the concatenation. -/
theorem optJoin_cons (acc : Option (List JsVal)) (c : JsVal) (cs : List JsVal) :
    optJoin acc (c :: cs) = some (acc.getD [] ++ c :: cs) := by
  cases acc with
  | none => rfl
  | some vs => rfl

/-- optJoin with a present accumulator always yields the concatenation. -/
theorem optJoin_some (vs : List JsVal) (col : List JsVal) :
    optJoin (some vs) col = some (vs ++ col) := by
  cases col with
  | nil => simp [optJoin]
  | cons c cs => rfl

/-- The outer forEach of avg: after folding all per-date entries, the
merged object holds at each key exactly the values collected across the
entries in order, appended to whatever the accumulator already held. -/
theorem assocFind_mergeAll (es : List JsVal) (m : List (String × List JsVal))
    (k : String) (hnd : ∀ e ∈ es, (jsKeys e).Nodup) :
    assocFind (es.foldl mergeEntry m) k =
      optJoin (assocFind m k) (es.filterMap (fun e => jsGet e k)) := by
  induction es generalizing m with
  | nil => simp [optJoin_nil]
  | cons e es ih =>
    rw [List.foldl_cons]
    rw [ih _ (fun e2 he2 => hnd e2 (List.mem_cons_of_mem _ he2))]
    rw [assocFind_mergeEntry m e k (hnd e (List.mem_cons_self e es))]
    rw [List.filterMap_cons]
    cases hget : jsGet e k with
    | none => rfl
    | some v =>
      dsimp only
      rw [optJoin_some, optJoin_cons]
      simp

/-- The merged object of a well-formed range mapping holds at each
currency code exactly the values collected across the per-date entries. -/
theorem assocFind_mergedOf (rates : JsVal) (k : String)
    (hnd : entryKeysNodup rates) :
    assocFind (mergedOf rates) k = optJoin none (collectJs k rates) := by
  unfold mergedOf collectJs
  exact assocFind_mergeAll (jsValues rates) [] k hnd

/-- Association lookup commutes with mapping over the values. -/
theorem assocFind_mapVals {α β : Type} (g : α → β) (l : List (String × α)) (k : String) :
    assocFind (l.map (fun kv => (kv.1, g kv.2))) k = (assocFind l k).map g := by
  induction l with
  | nil => rfl
  | cons kv rest ih =>
    obtain ⟨k2, v⟩ := kv
    by_cases h : k2 = k
    · subst h
      simp [assocFind]
    · simp [assocFind, h, ih]

/-- The per-key averaging body is the rounded arithmetic mean of the
numeric values. -/
theorem roundRate_eq (dp : Option Int) (vs : List JsVal) :
    roundRate dp vs = applyRound dp (meanOf (vs.map ratOf)) := by
  cases dp with
  | none => simp [roundRate, applyRound, meanOf, List.length_map]
  | some n => simp [roundRate, applyRound, meanOf, List.length_map]

/-- C1 counterexample: over the range mapping ratesScalarEntry — the
scalar 0.8 on the first date and the map EUR to 0.9 on the second date,
with EUR the one requested symbol — avg returns 0.9: the scalar entry is
silently dropped (Object.keys of a number is empty), NOT treated as a
single-key map keyed by the requested symbol; the claim instead demands
the mean of 0.8 and 0.9, which is 0.85, a different value. -/
theorem avg_scalar_entry_cx :
    (((ExchangeRates.new.fromDate ⟨2020, 1, 1⟩).toDate ⟨2020, 1, 2⟩).symbolsSt
        (.str "eur")).2.avg none
        (Transport.success 200 (.ok (.obj [("rates", ratesScalarEntry)]))) =
      .ok (.num ((9 : Rat) / 10)) ∧
    collectClaim "EUR" "EUR" ratesScalarEntry = [(8 : Rat) / 10, (9 : Rat) / 10] ∧
    meanOf (collectClaim "EUR" "EUR" ratesScalarEntry) = (17 : Rat) / 20 ∧
    ((9 : Rat) / 10) ≠ ((17 : Rat) / 20) := by
  refine ⟨?_, rfl, ?_, by norm_num⟩
  · show Except.ok (JsVal.num ((0 + (9 : Rat) / 10) / ((1 : Nat) : Rat))) =
      Except.ok (JsVal.num ((9 : Rat) / 10))
    exact congrArg (fun q : Rat => Except.ok (JsVal.num q)) (by norm_num)
  · show (0 + (8 : Rat) / 10 + (9 : Rat) / 10) / ((2 : Nat) : Rat) = (17 : Rat) / 20
    norm_num

/-- C1 amended: avg on a fetched result applies the pure reduction (given
a decimalPlaces that passes the guards); for a range mapping whose
per-date entries are duplicate-free JS objects, the averaged object holds
at every currency code appearing in some OBJECT entry the arithmetic mean
of the values collected across dates — scalar per-date entries contribute
nothing (they are skipped, not treated as single-key maps) — rounded when
decimalPlaces is given; and the reduction ends with the single-key
collapse of the averaged object. -/
theorem avg_range_mean :
    (∀ (c : ExchangeRates) (dp : Option Int) (t : Transport) (rates : JsVal),
      c.fetchWith t = .ok rates →
      (dp = none ∨ ∃ n : Int, dp = some n ∧ 0 ≤ n) →
      c.avg dp t = .ok (avgReduce dp c._isHistoryRequest rates)) ∧
    (∀ (dp : Option Int) (rates : JsVal) (k : String),
      entryKeysNodup rates →
      collectJs k rates ≠ [] →
      assocFind (avgRatesOf dp rates) k =
        some (applyRound dp (meanOf (collectRates k rates)))) ∧
    (∀ (dp : Option Int) (rates : JsVal),
      avgReduce dp true rates = collapseRates (avgRatesOf dp rates)) := by
  refine ⟨?_, ?_, ?_⟩
  · intro c dp t rates hfetch hdp
    unfold ExchangeRates.avg
    rcases hdp with rfl | ⟨n, rfl, hn⟩
    · rw [hfetch]
    · dsimp only
      rw [if_neg (show ¬ n < 0 by omega), hfetch]
  · intro dp rates k hnd hne
    unfold avgRatesOf
    rw [assocFind_mapVals (roundRate dp) (mergedOf rates) k]
    rw [assocFind_mergedOf rates k hnd]
    obtain ⟨c0, cs, hcol⟩ : ∃ c0 cs, collectJs k rates = c0 :: cs := by
      cases hc : collectJs k rates with
      | nil => exact absurd hc hne
      | cons c0 cs => exact ⟨c0, cs, rfl⟩
    rw [hcol, optJoin_cons]
    simp only [Option.getD_none, List.nil_append, Option.map_some']
    rw [roundRate_eq]
    unfold collectRates
    rw [hcol]
  · intro dp rates
    rfl

/-- Witness for C1 at the spec example mapping ratesEx (EUR worth 0.80
and 0.90 over two dates): without decimalPlaces the averaged entry is
0.85, with decimalPlaces 1 it rounds to 0.9, and avg on a configured
range chain with a transport carrying ratesEx applies the reduction. -/
theorem avg_range_mean_witness :
    assocFind (avgRatesOf none ratesEx) "EUR" =
      some (applyRound none (meanOf (collectRates "EUR" ratesEx))) ∧
    applyRound none (meanOf (collectRates "EUR" ratesEx)) = (17 : Rat) / 20 ∧
    assocFind (avgRatesOf (some 1) ratesEx) "EUR" =
      some (applyRound (some 1) (meanOf (collectRates "EUR" ratesEx))) ∧
    applyRound (some 1) (meanOf (collectRates "EUR" ratesEx)) = (9 : Rat) / 10 ∧
    cfgEx.avg none tEx = .ok (avgReduce none true ratesEx) := by
  refine ⟨avg_range_mean.2.1 none ratesEx "EUR" (by decide)
      (by rw [show collectJs "EUR" ratesEx =
          [JsVal.num ((8 : Rat) / 10), JsVal.num ((9 : Rat) / 10)] from rfl]
          exact List.cons_ne_nil _ _),
   ?_,
   avg_range_mean.2.1 (some 1) ratesEx "EUR" (by decide)
      (by rw [show collectJs "EUR" ratesEx =
          [JsVal.num ((8 : Rat) / 10), JsVal.num ((9 : Rat) / 10)] from rfl]
          exact List.cons_ne_nil _ _),
   ?_,
   avg_range_mean.1 cfgEx none tEx ratesEx rfl (Or.inl rfl)⟩
  · show (0 + (8 : Rat) / 10 + (9 : Rat) / 10) / ((2 : Nat) : Rat) = (17 : Rat) / 20
    norm_num
  · show toFixed (1 : Int).toNat
        ((0 + (8 : Rat) / 10 + (9 : Rat) / 10) / ((2 : Nat) : Rat)) = (9 : Rat) / 10
    rw [show ((0 + (8 : Rat) / 10 + (9 : Rat) / 10) / ((2 : Nat) : Rat)) = (17 : Rat) / 20
      from by norm_num]
    unfold toFixed
    rw [show (17 : Rat) / 20 * (10 : Rat) ^ (1 : Int).toNat + 1 / 2 = ((9 : Int) : Rat)
      from by norm_num]
    rw [Int.floor_intCast]
    norm_num

/-- Witness for C9 at the README conversion example: 2000 USD to EUR on
2018-01-01 with a mocked rate. -/
theorem convert_spec_witness :
    convert (.num 2000) (.str "usd") (.str "eur") (some ⟨2018, 1, 1⟩)
        (Transport.success 200 (.ok (.obj [("rates",
          .obj [("EUR", .num ((8338 : Rat) / 10000))])]))) =
      .ok ((8338 : Rat) / 10000 * 2000) :=
  convert_spec.2.2 2000 "usd" "eur" (some ⟨2018, 1, 1⟩) _ ((8338 : Rat) / 10000)
    (by decide) (by decide) (by rfl)

end XRates
